import Mathlib

/-!
Verification development for the rpkirtr2 RTR cache server.

The definitions below are a shallow embedding of the Go sources:

* internal/protocol/decode.go     (getPDUBytes, decipherPDU, GetPDU)
* internal/protocol/marshal.go    (the per-type Write methods)
* the PDU structs and their constructors (NewSerialQueryPDU, ...)
* internal/server/roa.go          (roa.isValid, makeDiff)
* internal/server/cache.go        (cache state, updateDiffs, incrementSerial,
                                   isDiffs, the periodic refresh step)
* internal/server/client_handler.go (handleSerialQuery, sendAllROAS,
                                   sendEndOfDataPDU, the Handle read loop)

Machine integers are modelled as Nat with explicit reductions modulo 2^8,
2^16 and 2^32 in exactly the places where the Go code performs fixed-width
arithmetic.  Byte strings and streams are List Nat (a Go byte always lies
below 256; the functions are total on all of Nat).  Fallible Go code is
modelled with an explicit result type that distinguishes ordinary errors
from runtime panics, and every Go indexing or slicing expression that could
panic at runtime is modelled by a checked operation that yields the panic
result exactly under Go's out-of-range conditions.
-/

namespace Rtr

/-- Reduction modulo 2^8, the behaviour of a Go uint8 conversion. -/
def u8 (n : Nat) : Nat := n % 256

/-- Reduction modulo 2^16, the behaviour of a Go uint16 conversion. -/
def u16 (n : Nat) : Nat := n % 65536

/-- Reduction modulo 2^32, the behaviour of a Go uint32 conversion. -/
def u32 (n : Nat) : Nat := n % 4294967296

/-- binary.BigEndian.Uint16: the value of two big-endian bytes. -/
def beU16 (xs : List Nat) : Nat := xs.getD 0 0 * 256 + xs.getD 1 0

/-- binary.BigEndian.Uint32: the value of four big-endian bytes. -/
def beU32 (xs : List Nat) : Nat :=
  xs.getD 0 0 * 16777216 + xs.getD 1 0 * 65536 + xs.getD 2 0 * 256 + xs.getD 3 0

/-- binary.BigEndian.PutUint16: the two big-endian bytes of a uint16 value. -/
def pu16 (n : Nat) : List Nat := [u16 n / 256, u16 n % 256]

/-- binary.BigEndian.PutUint32: the four big-endian bytes of a uint32 value. -/
def pu32 (n : Nat) : List Nat :=
  [u32 n / 16777216, u32 n / 65536 % 256, u32 n / 256 % 256, u32 n % 256]

/-- Result of running a piece of Go code: a value, a returned error, or a
runtime panic. -/
inductive GoResult (α : Type) where
  | ok : α → GoResult α
  | err : GoResult α
  | panic : GoResult α
deriving DecidableEq

/-- Whether a result is a successfully returned value. -/
def GoResult.isOk {α : Type} : GoResult α → Bool
  | .ok _ => true
  | _ => false

/-- A Go indexing expression xs[i]: panics exactly when i is out of range. -/
def goIndex (xs : List Nat) (i : Nat) : GoResult Nat :=
  if i < xs.length then .ok (xs.getD i 0) else .panic

/-- A Go slicing expression xs[lo:hi]: panics exactly when lo > hi or
hi > len(xs) (capacity equals length for the buffers modelled here). -/
def goSlice (xs : List Nat) (lo hi : Nat) : GoResult (List Nat) :=
  if lo ≤ hi ∧ hi ≤ xs.length then .ok ((xs.drop lo).take (hi - lo)) else .panic

/-! PDU data model, following the struct definitions of the protocol
package.  Field names follow the Go source (including the misspelling
verion in ErrorReportPDU); the prefix bytes of the address-prefix PDUs are
stored in a field called pfx because of naming constraints of this
development. -/

/-- SerialNotifyPDU struct. -/
structure SerialNotifyPDU where
  version : Nat
  ptype : Nat
  session : Nat
  length : Nat
  serial : Nat
deriving DecidableEq

/-- SerialQueryPDU struct. -/
structure SerialQueryPDU where
  version : Nat
  ptype : Nat
  session : Nat
  length : Nat
  serial : Nat
deriving DecidableEq

/-- ResetQueryPDU struct. -/
structure ResetQueryPDU where
  version : Nat
  ptype : Nat
  zero : Nat
  length : Nat
deriving DecidableEq

/-- CacheResponsePDU struct. -/
structure CacheResponsePDU where
  version : Nat
  ptype : Nat
  session : Nat
  length : Nat
deriving DecidableEq

/-- Ipv4PrefixPDU struct; pfx holds the four address bytes. -/
structure Ipv4PrefixPDU where
  version : Nat
  ptype : Nat
  zero1 : Nat
  length : Nat
  flags : Nat
  min : Nat
  max : Nat
  zero2 : Nat
  pfx : List Nat
  asn : Nat
deriving DecidableEq

/-- Ipv6PrefixPDU struct; the Go struct has no length field (its Write
method hardcodes 32); pfx holds the sixteen address bytes. -/
structure Ipv6PrefixPDU where
  version : Nat
  ptype : Nat
  zero1 : Nat
  flags : Nat
  min : Nat
  max : Nat
  zero2 : Nat
  pfx : List Nat
  asn : Nat
deriving DecidableEq

/-- EndOfDataPDU struct. -/
structure EndOfDataPDU where
  version : Nat
  ptype : Nat
  session : Nat
  length : Nat
  serial : Nat
  refresh : Nat
  retry : Nat
  expire : Nat
deriving DecidableEq

/-- cacheResetPDU struct. -/
structure CacheResetPDU where
  version : Nat
  ptype : Nat
  zero : Nat
  length : Nat
deriving DecidableEq

/-- ErrorReportPDU struct (the Go field is literally spelled verion). -/
structure ErrorReportPDU where
  verion : Nat
  ptype : Nat
  code : Nat
  length : Nat
  pduLen : Nat
  pdu : List Nat
  textLen : Nat
  text : List Nat
deriving DecidableEq

/-- The PDU interface: a tagged union of the concrete PDU structs. -/
inductive PDU where
  | serialNotify : SerialNotifyPDU → PDU
  | serialQuery : SerialQueryPDU → PDU
  | resetQuery : ResetQueryPDU → PDU
  | cacheResponse : CacheResponsePDU → PDU
  | ipv4 : Ipv4PrefixPDU → PDU
  | ipv6 : Ipv6PrefixPDU → PDU
  | endOfData : EndOfDataPDU → PDU
  | cacheReset : CacheResetPDU → PDU
  | errorReport : ErrorReportPDU → PDU
deriving DecidableEq

/-- Flag constant Announce = 1. -/
def Announce : Nat := 1

/-- Flag constant Withdraw = 0. -/
def Withdraw : Nat := 0

/-- NewSerialNotifyPDU constructor. -/
def NewSerialNotifyPDU (ver session serial : Nat) : SerialNotifyPDU :=
  { version := ver, ptype := 0, session := session, length := 12, serial := serial }

/-- NewSerialQueryPDU constructor. -/
def NewSerialQueryPDU (ver session serial : Nat) : SerialQueryPDU :=
  { version := ver, ptype := 1, session := session, length := 12, serial := serial }

/-- NewResetQueryPDU constructor. -/
def NewResetQueryPDU (ver : Nat) : ResetQueryPDU :=
  { version := ver, ptype := 2, zero := 0, length := 8 }

/-- NewCacheResponsePDU constructor. -/
def NewCacheResponsePDU (ver session : Nat) : CacheResponsePDU :=
  { version := ver, ptype := 3, session := session, length := 8 }

/-- NewIpv4PrefixPDU constructor. -/
def NewIpv4PrefixPDU (ver flags mn mx : Nat) (pfx : List Nat) (asn : Nat) : Ipv4PrefixPDU :=
  { version := ver, ptype := 4, zero1 := 0, length := 20, flags := flags,
    min := mn, max := mx, zero2 := 0, pfx := pfx, asn := asn }

/-- NewIpv6PrefixPDU constructor. -/
def NewIpv6PrefixPDU (ver flags mn mx : Nat) (pfx : List Nat) (asn : Nat) : Ipv6PrefixPDU :=
  { version := ver, ptype := 6, zero1 := 0, flags := flags,
    min := mn, max := mx, zero2 := 0, pfx := pfx, asn := asn }

/-- NewEndOfDataPDU constructor. -/
def NewEndOfDataPDU (ver session serial refresh retry expire : Nat) : EndOfDataPDU :=
  { version := ver, ptype := 7, session := session, length := 24, serial := serial,
    refresh := refresh, retry := retry, expire := expire }

/-- NewCacheResetPDU constructor. -/
def NewCacheResetPDU (ver : Nat) : CacheResetPDU :=
  { version := ver, ptype := 8, zero := 0, length := 8 }

/-- NewErrorReportPDU constructor.  Note that the Go code sets the length
field to 12 + len(pdu) + len(text), which omits the four bytes of the
text-length field present in the wire layout. -/
def NewErrorReportPDU (ver code : Nat) (pdu text : List Nat) : ErrorReportPDU :=
  { verion := ver, ptype := 10, code := code,
    length := 12 + pdu.length + text.length,
    pduLen := pdu.length, pdu := pdu,
    textLen := text.length, text := text }

/-! Decoding, following internal/protocol/decode.go. -/

/-- getPDUBytes: read an 8-byte header from the stream, validate the length
field (total PDU length, 8 ≤ length ≤ 65535), then read the payload.  The
reads use io.ReadFull, which errors when the stream is exhausted early.
The header slice buf has exactly 8 bytes, so the access buf[4:8] is in
range by construction and is written directly. -/
def getPDUBytes (stream : List Nat) : GoResult (List Nat) :=
  if stream.length < 8 then .err
  else
    let buf := stream.take 8
    let length := beU32 ((buf.drop 4).take 4)
    if length < 8 ∨ length > 65535 then .err
    else
      let payloadLen := length - 8
      if payloadLen > 0 then
        if (stream.drop 8).length < payloadLen then .err
        else .ok (buf ++ (stream.drop 8).take payloadLen)
      else .ok buf

/-- decipherPDU: dispatch on the type byte and build the typed PDU.  Every
index and slice taken from the incoming buffer is modelled with goIndex
and goSlice, so a Lean result of panic corresponds exactly to a Go runtime
panic.  Arithmetic on the pduLen and textLen fields is uint32 arithmetic
in Go and is therefore reduced with u32 at each compound expression. -/
def decipherPDU (data : List Nat) : GoResult PDU :=
  if data.length < 2 then .err
  else
    match goIndex data 1 with
    | .ok ptype =>
      if ptype = 1 then
        if data.length < 12 then .err
        else
          match goIndex data 0, goSlice data 2 4, goSlice data 8 12 with
          | .ok ver, .ok sess, .ok ser =>
              .ok (.serialQuery (NewSerialQueryPDU ver (beU16 sess) (beU32 ser)))
          | _, _, _ => .panic
      else if ptype = 2 then
        if data.length < 8 then .err
        else
          match goIndex data 0 with
          | .ok ver => .ok (.resetQuery (NewResetQueryPDU ver))
          | _ => .panic
      else if ptype = 10 then
        if data.length < 12 then .err
        else
          match goSlice data 8 12 with
          | .ok pl =>
            let pduLen := beU32 pl
            if pduLen > u32 data.length ∨ u32 (12 + pduLen + 4) > data.length then .err
            else
              match goSlice data (u32 (12 + pduLen)) (u32 (12 + pduLen + 4)) with
              | .ok tl =>
                let textLen := beU32 tl
                if textLen > u32 data.length ∨ u32 (12 + pduLen + 4 + textLen) > data.length then .err
                else
                  match goIndex data 0, goSlice data 2 4, goSlice data 4 8,
                        goSlice data 12 (u32 (12 + pduLen)),
                        goSlice data (u32 (12 + pduLen + 4)) (u32 (12 + pduLen + 4 + textLen)) with
                  | .ok ver, .ok cd, .ok ln, .ok pd, .ok tx =>
                      .ok (.errorReport
                        { verion := ver, ptype := 10, code := beU16 cd,
                          length := beU32 ln, pduLen := pduLen, pdu := pd,
                          textLen := textLen, text := tx })
                  | _, _, _, _, _ => .panic
              | _ => .panic
          | _ => .panic
      else .err
    | _ => .panic

/-- GetPDU: frame a PDU off the stream and decode it.  Errors from either
stage are propagated (the Go code wraps them in a message). -/
def GetPDU (stream : List Nat) : GoResult PDU :=
  match getPDUBytes stream with
  | .ok bytes => decipherPDU bytes
  | .err => .err
  | .panic => .panic

/-! Encoding, following internal/protocol/marshal.go and the Write methods.
The writers emit into an ideal in-memory sink, so writeFull always commits
the whole buffer; the only Write method that can fail or panic on its own
is ErrorReportPDU.Write, which is modelled below with its Go control
flow. -/

/-- Pad or truncate a list to exactly n bytes, the effect of copying a Go
slice into a freshly zeroed n-byte region. -/
def fit (n : Nat) (xs : List Nat) : List Nat :=
  xs.take n ++ List.replicate (n - xs.length) 0

/-- SerialNotifyPDU.Write: the 12-byte buffer it commits. -/
def SerialNotifyPDU.write (s : SerialNotifyPDU) : List Nat :=
  [u8 s.version, u8 s.ptype] ++ pu16 s.session ++ pu32 s.length ++ pu32 s.serial

/-- SerialQueryPDU.Write: the 12-byte buffer it commits. -/
def SerialQueryPDU.write (s : SerialQueryPDU) : List Nat :=
  [u8 s.version, u8 s.ptype] ++ pu16 s.session ++ pu32 s.length ++ pu32 s.serial

/-- ResetQueryPDU.Write: the 8-byte buffer it commits (byte 2 is the zero
field, byte 3 stays zero). -/
def ResetQueryPDU.write (r : ResetQueryPDU) : List Nat :=
  [u8 r.version, u8 r.ptype, u8 r.zero, 0] ++ pu32 r.length

/-- CacheResponsePDU.Write: the 8-byte buffer it commits. -/
def CacheResponsePDU.write (c : CacheResponsePDU) : List Nat :=
  [u8 c.version, u8 c.ptype] ++ pu16 c.session ++ pu32 c.length

/-- EndOfDataPDU.Write: the 24-byte buffer it commits. -/
def EndOfDataPDU.write (e : EndOfDataPDU) : List Nat :=
  [u8 e.version, u8 e.ptype] ++ pu16 e.session ++ pu32 e.length ++ pu32 e.serial
    ++ pu32 e.refresh ++ pu32 e.retry ++ pu32 e.expire

/-- cacheResetPDU.Write: the 8-byte buffer it commits. -/
def CacheResetPDU.write (c : CacheResetPDU) : List Nat :=
  [u8 c.version, u8 c.ptype] ++ pu16 c.zero ++ pu32 c.length

/-- ErrorReportPDU.Write from marshal.go.  The method first validates that
the stored pduLen and textLen do not exceed the backing slices and returns
an error without writing otherwise.  It then allocates a buffer of
bufLen = 12 + pduLen + 4 + textLen bytes (int arithmetic, no wrapping) and
stamps uint32(bufLen) into the length field, ignoring the stored length.

The destination of the first copy is the Go expression
buf[12 : 12+e.pduLen], whose high index is computed in uint32 arithmetic;
after the guards the only way this slice expression can panic is the high
index wrapping below 12, which is recorded here explicitly.  The remaining
index expressions use int arithmetic (offset := 12 + int(e.pduLen)) and
are in range whenever the guards passed, so the committed buffer is the
concatenation written below. -/
def ErrorReportPDU.write (e : ErrorReportPDU) : GoResult (List Nat) :=
  if e.pduLen > e.pdu.length then .err
  else if e.textLen > e.text.length then .err
  else
    let bufLen := 12 + e.pduLen + 4 + e.textLen
    if u32 (12 + e.pduLen) < 12 then .panic
    else
      .ok ([u8 e.verion, u8 e.ptype] ++ pu16 e.code ++ pu32 bufLen ++ pu32 e.pduLen
            ++ e.pdu.take e.pduLen ++ pu32 e.textLen ++ e.text.take e.textLen)

/-! ROA model and diff engine, following internal/server/roa.go and the
roa struct of internal/server/server.go.  A roa stores a netip.Prefix, a
MaxMask byte and an ASN; the netip.Prefix is modelled by its address
family, its prefix length in bits and its address bytes (4 or 16). -/

/-- roa struct: pfxIs4, pfxBits and pfxAddr model Prefix.Addr().Is4(),
Prefix.Bits() and the address bytes of the netip.Prefix field. -/
structure Roa where
  pfxIs4 : Bool
  pfxBits : Nat
  pfxAddr : List Nat
  MaxMask : Nat
  ASN : Nat
deriving DecidableEq

/-- roa.isValid from roa.go: reject a zero MaxMask, a MaxMask below the
prefix length (compared against uint8(Prefix.Bits())), and a MaxMask above
the family maximum (32 for IPv4 via the first arm, 128 via the second). -/
def Roa.isValid (r : Roa) : Bool :=
  if r.MaxMask = 0 then false
  else if r.MaxMask < u8 r.pfxBits then false
  else if r.pfxIs4 && decide (r.MaxMask > 32) then false
  else if r.MaxMask > 128 then false
  else true

/-- diffs struct from server.go: the serial pair plus the added and deleted
ROA lists and the non-empty flag. -/
structure Diffs where
  old : Nat
  new : Nat
  delRoa : List Roa
  addRoa : List Roa
  diff : Bool
deriving DecidableEq

/-- makeDiff from roa.go: a ROA present in new but not old is added, one
present in old but not new is deleted (slices.Contains is list
membership), and the diff flag records whether anything changed.  The new
serial is uint32 arithmetic. -/
def makeDiff (new old : List Roa) (serial : Nat) : Diffs :=
  let addROA := new.filter (fun r => decide (r ∉ old))
  let delROA := old.filter (fun r => decide (r ∉ new))
  { old := serial, new := u32 (serial + 1),
    delRoa := delROA, addRoa := addROA,
    diff := decide (0 < addROA.length ∨ 0 < delROA.length) }

/-! Shared cache, following internal/server/cache.go. -/

/-- diffs struct from cache.go (no serial pair). -/
structure CacheDiffs where
  delRoa : List Roa
  addRoa : List Roa
  diff : Bool
deriving DecidableEq

/-- cache struct from cache.go: ROA list, last diff, serial, session. -/
structure CacheState where
  roas : List Roa
  diffs : CacheDiffs
  serial : Nat
  session : Nat
deriving DecidableEq

/-- The two-argument makeDiff call of cache.go line 93.  Its body is the
diff computation of roa.go makeDiff, whose addRoa, delRoa and diff fields
do not depend on the serial argument, packaged into the cache.go diffs
struct. -/
def makeDiffPair (new old : List Roa) : CacheDiffs :=
  let addROA := new.filter (fun r => decide (r ∉ old))
  let delROA := old.filter (fun r => decide (r ∉ new))
  { delRoa := delROA, addRoa := addROA,
    diff := decide (0 < addROA.length ∨ 0 < delROA.length) }

/-- cache.updateDiffs: replace the ROA list, store the added and deleted
lists, and recompute the non-empty flag from their lengths. -/
def CacheState.updateDiffs (c : CacheState) (roas addRoa delRoa : List Roa) : CacheState :=
  { c with roas := roas,
           diffs := { delRoa := delRoa, addRoa := addRoa,
                      diff := decide (0 < addRoa.length ∨ 0 < delRoa.length) } }

/-- cache.incrementSerial: the serial is a uint32 and wraps. -/
def CacheState.incrementSerial (c : CacheState) : CacheState :=
  { c with serial := u32 (c.serial + 1) }

/-- cache.isDiffs: whether the stored diff has any added or deleted ROA. -/
def CacheState.isDiffs (c : CacheState) : Bool :=
  decide (0 < c.diffs.addRoa.length ∨ 0 < c.diffs.delRoa.length)

/-- One tick of Server.periodicROAUpdater once a fresh ROA list has been
fetched: compute the diff against the cached list; when it is non-empty,
install the new list with the diff and bump the serial; otherwise leave
the cache untouched. -/
def refreshStep (st : CacheState) (newROAs : List Roa) : CacheState :=
  let d := makeDiffPair newROAs st.roas
  if d.diff then (st.updateDiffs newROAs d.addRoa d.delRoa).incrementSerial
  else st

/-! Per-session emission, following internal/server/client_handler.go.
Each send helper is modelled by the list of PDUs it commits to the
client's stream (the writer is ideal, so flushes succeed). -/

/-- The default End of Data intervals from client_handler.go. -/
def DefaultRefreshInterval : Nat := 3600

/-- Default retry interval. -/
def DefaultRetryInterval : Nat := 600

/-- Default expire interval. -/
def DefaultExpireInterval : Nat := 7200

/-- The prefix PDU built for one ROA inside sendAllROAS and sendDiffs: an
IPv4 or IPv6 Prefix PDU carrying the given flags, uint8(Prefix.Bits()),
MaxMask, the address bytes and the ASN. -/
def prefixPDUFor (ver flags : Nat) (r : Roa) : PDU :=
  if r.pfxIs4 then
    .ipv4 (NewIpv4PrefixPDU ver flags (u8 r.pfxBits) r.MaxMask r.pfxAddr r.ASN)
  else
    .ipv6 (NewIpv6PrefixPDU ver flags (u8 r.pfxBits) r.MaxMask r.pfxAddr r.ASN)

/-- Client.sendCacheResponse: one Cache Response PDU with the negotiated
version and the cache session. -/
def sendCacheResponse (ver session : Nat) : List PDU :=
  [.cacheResponse (NewCacheResponsePDU ver session)]

/-- Client.sendCacheReset: one Cache Reset PDU. -/
def sendCacheReset (ver : Nat) : List PDU :=
  [.cacheReset (NewCacheResetPDU ver)]

/-- Client.sendEndOfDataPDU: one End of Data PDU with the given session
and serial and the default intervals. -/
def sendEndOfDataPDU (ver session serial : Nat) : List PDU :=
  [.endOfData (NewEndOfDataPDU ver session serial
      DefaultRefreshInterval DefaultRetryInterval DefaultExpireInterval)]

/-- Client.sendDiffs: every added ROA as a prefix PDU with the announce
flag, then every deleted ROA with the withdraw flag. -/
def sendDiffs (ver : Nat) (d : CacheDiffs) : List PDU :=
  d.addRoa.map (prefixPDUFor ver Announce) ++ d.delRoa.map (prefixPDUFor ver Withdraw)

/-- Client.sendAllROAS: one announce prefix PDU per cached ROA, then the
End of Data PDU with the cache session and serial. -/
def sendAllROAS (ver : Nat) (st : CacheState) : List PDU :=
  st.roas.map (prefixPDUFor ver Announce) ++ sendEndOfDataPDU ver st.session st.serial

/-- Client.handleSerialQuery: serial 0 gets a Cache Reset; a serial other
than the current one and the previous one (uint32 subtraction, hence the
wrapped serial + 2^32 - 1) gets a Cache Reset; the current serial gets a
Cache Response; the previous serial with a non-empty stored diff gets a
Cache Response and the diffs; every surviving path then gets the End of
Data PDU. -/
def handleSerialQuery (ver : Nat) (st : CacheState) (s : Nat) : List PDU :=
  if s = 0 then sendCacheReset ver
  else if s ≠ st.serial ∧ s ≠ u32 (st.serial + 4294967295) then sendCacheReset ver
  else
    (if s = st.serial then sendCacheResponse ver st.session else [])
    ++ (if s = u32 (st.serial + 4294967295) ∧ st.isDiffs then
          sendCacheResponse ver st.session ++ sendDiffs ver st.diffs
        else [])
    ++ sendEndOfDataPDU ver st.session st.serial

/-- The Reset Query arm of Client.Handle and sendInitialResponse:
sendCacheResponse followed by sendAllROAS. -/
def handleResetQuery (ver : Nat) (st : CacheState) : List PDU :=
  sendCacheResponse ver st.session ++ sendAllROAS ver st

/-- Outcome of one iteration of the main read loop of Client.Handle: the
PDUs emitted and whether the handler closed the connection. -/
structure LoopResult where
  out : List PDU
  closed : Bool
deriving DecidableEq

/-- One iteration of the post-negotiation read loop of Client.Handle on a
successfully decoded PDU: Reset Query and Serial Query are served from the
cache; every other type closes the session without emitting anything.  The
version field of the received PDU is not consulted anywhere on this
path; ver is the version negotiated at session start. -/
def handleLoopPDU (ver : Nat) (st : CacheState) (p : PDU) : LoopResult :=
  match p with
  | .resetQuery _ => { out := handleResetQuery ver st, closed := false }
  | .serialQuery q => { out := handleSerialQuery ver st q.serial, closed := false }
  | _ => { out := [], closed := true }

/-! Classifiers and field projections on the PDU union, used to state the
emission properties. -/

/-- Whether a PDU is a Cache Response. -/
def PDU.isCacheResponseB : PDU → Bool
  | .cacheResponse _ => true
  | _ => false

/-- Whether a PDU is an End of Data. -/
def PDU.isEndOfDataB : PDU → Bool
  | .endOfData _ => true
  | _ => false

/-- Whether a PDU is an IPv4 or IPv6 Prefix PDU. -/
def PDU.isPrefixB : PDU → Bool
  | .ipv4 _ => true
  | .ipv6 _ => true
  | _ => false

/-- Whether a PDU is an Error Report. -/
def PDU.isErrorReportB : PDU → Bool
  | .errorReport _ => true
  | _ => false

/-- The flags field of a prefix PDU. -/
def prefixFlags : PDU → Option Nat
  | .ipv4 p => some p.flags
  | .ipv6 p => some p.flags
  | _ => none

/-- The prefix-length field of a prefix PDU. -/
def prefixMin : PDU → Option Nat
  | .ipv4 p => some p.min
  | .ipv6 p => some p.min
  | _ => none

/-- The max-length field of a prefix PDU. -/
def prefixMax : PDU → Option Nat
  | .ipv4 p => some p.max
  | .ipv6 p => some p.max
  | _ => none

/-- The address bytes of a prefix PDU. -/
def prefixAddr : PDU → Option (List Nat)
  | .ipv4 p => some p.pfx
  | .ipv6 p => some p.pfx
  | _ => none

/-- The ASN field of a prefix PDU. -/
def prefixAsn : PDU → Option Nat
  | .ipv4 p => some p.asn
  | .ipv6 p => some p.asn
  | _ => none

/-! Helper lemmas about the checked operations and the byte codecs. -/

/-- An in-range Go index evaluates to the element. -/
theorem goIndex_pos {xs : List Nat} {i : Nat} (h : i < xs.length) :
    goIndex xs i = .ok (xs.getD i 0) := by
  simp [goIndex, h]

/-- An in-range Go slice evaluates to the window. -/
theorem goSlice_pos {xs : List Nat} {lo hi : Nat} (h1 : lo ≤ hi) (h2 : hi ≤ xs.length) :
    goSlice xs lo hi = .ok ((xs.drop lo).take (hi - lo)) := by
  simp [goSlice, h1, h2]

/-- Reading back the four bytes written for a uint32 recovers its value. -/
theorem beU32_pu32 (n : Nat) : beU32 (pu32 n) = u32 n := by
  simp [beU32, pu32, u32]
  omega

/-- Reading back the two bytes written for a uint16 recovers its value. -/
theorem beU16_pu16 (n : Nat) : beU16 (pu16 n) = u16 n := by
  simp [beU16, pu16, u16]
  omega

/-- C7.  After a refresh tick with a non-empty diff the serial advanced by
exactly one modulo 2^32, the stored ROA list is the fetched one, the
stored diff is the computed one, and the session survived; with an empty
diff the whole cache state is unchanged. -/
theorem c7_refresh_install (st : CacheState) (newROAs : List Roa) :
    ((makeDiffPair newROAs st.roas).diff = true →
       (refreshStep st newROAs).serial = u32 (st.serial + 1) ∧
       (refreshStep st newROAs).roas = newROAs ∧
       (refreshStep st newROAs).diffs = makeDiffPair newROAs st.roas ∧
       (refreshStep st newROAs).session = st.session) ∧
    ((makeDiffPair newROAs st.roas).diff = false →
       refreshStep st newROAs = st) := by
  constructor
  · intro h
    simp only [makeDiffPair, decide_eq_true_eq, decide_not] at h
    simp [refreshStep, makeDiffPair, CacheState.updateDiffs, CacheState.incrementSerial, h]
  · intro h
    simp only [makeDiffPair, decide_eq_false_iff_not, decide_not] at h
    simp [refreshStep, makeDiffPair, h]

/-- Witness for C7 at a concrete state and fetch. -/
theorem c7_refresh_install_witness :
    ((makeDiffPair [{ pfxIs4 := true, pfxBits := 24, pfxAddr := [10, 0, 0, 0],
                      MaxMask := 24, ASN := 65001 }]
        ({ roas := [], diffs := { delRoa := [], addRoa := [], diff := false },
           serial := 1, session := 7 } : CacheState).roas).diff = true →
       (refreshStep { roas := [], diffs := { delRoa := [], addRoa := [], diff := false },
                      serial := 1, session := 7 }
          [{ pfxIs4 := true, pfxBits := 24, pfxAddr := [10, 0, 0, 0],
             MaxMask := 24, ASN := 65001 }]).serial =
         u32 (({ roas := [], diffs := { delRoa := [], addRoa := [], diff := false },
                 serial := 1, session := 7 } : CacheState).serial + 1) ∧
       (refreshStep { roas := [], diffs := { delRoa := [], addRoa := [], diff := false },
                      serial := 1, session := 7 }
          [{ pfxIs4 := true, pfxBits := 24, pfxAddr := [10, 0, 0, 0],
             MaxMask := 24, ASN := 65001 }]).roas =
         [{ pfxIs4 := true, pfxBits := 24, pfxAddr := [10, 0, 0, 0],
            MaxMask := 24, ASN := 65001 }] ∧
       (refreshStep { roas := [], diffs := { delRoa := [], addRoa := [], diff := false },
                      serial := 1, session := 7 }
          [{ pfxIs4 := true, pfxBits := 24, pfxAddr := [10, 0, 0, 0],
             MaxMask := 24, ASN := 65001 }]).diffs =
         makeDiffPair [{ pfxIs4 := true, pfxBits := 24, pfxAddr := [10, 0, 0, 0],
                         MaxMask := 24, ASN := 65001 }]
           ({ roas := [], diffs := { delRoa := [], addRoa := [], diff := false },
              serial := 1, session := 7 } : CacheState).roas ∧
       (refreshStep { roas := [], diffs := { delRoa := [], addRoa := [], diff := false },
                      serial := 1, session := 7 }
          [{ pfxIs4 := true, pfxBits := 24, pfxAddr := [10, 0, 0, 0],
             MaxMask := 24, ASN := 65001 }]).session = 7) ∧
    ((makeDiffPair [{ pfxIs4 := true, pfxBits := 24, pfxAddr := [10, 0, 0, 0],
                      MaxMask := 24, ASN := 65001 }]
        ({ roas := [], diffs := { delRoa := [], addRoa := [], diff := false },
           serial := 1, session := 7 } : CacheState).roas).diff = false →
       refreshStep { roas := [], diffs := { delRoa := [], addRoa := [], diff := false },
                     serial := 1, session := 7 }
         [{ pfxIs4 := true, pfxBits := 24, pfxAddr := [10, 0, 0, 0],
            MaxMask := 24, ASN := 65001 }] =
         { roas := [], diffs := { delRoa := [], addRoa := [], diff := false },
           serial := 1, session := 7 }) :=
  c7_refresh_install
    { roas := [], diffs := { delRoa := [], addRoa := [], diff := false },
      serial := 1, session := 7 }
    [{ pfxIs4 := true, pfxBits := 24, pfxAddr := [10, 0, 0, 0],
       MaxMask := 24, ASN := 65001 }]

/-- C8.  The validity check accepts a ROA exactly when its MaxMask is at
least one, at least the prefix length, and at most the family maximum (32
for IPv4, 128 for IPv6).  The hypotheses record that MaxMask is a Go uint8
and that the prefix length of a netip address never exceeds its family
bit width. -/
theorem c8_isValid_iff (r : Roa) (h1 : r.MaxMask < 256)
    (h2 : r.pfxBits ≤ if r.pfxIs4 then 32 else 128) :
    r.isValid = true ↔
      (1 ≤ r.MaxMask ∧ r.pfxBits ≤ r.MaxMask ∧
        r.MaxMask ≤ if r.pfxIs4 then 32 else 128) := by
  have h128 : r.pfxBits ≤ 128 := by
    rcases hi : r.pfxIs4 <;> rw [hi] at h2 <;> simp at h2 <;> omega
  have hb : u8 r.pfxBits = r.pfxBits := Nat.mod_eq_of_lt (by omega)
  rcases hi : r.pfxIs4 <;>
    simp only [Roa.isValid, hb, hi, Bool.false_and, Bool.true_and] at h2 ⊢ <;>
    norm_num at h2 ⊢ <;> omega

/-- Witness for C8 at the IPv4 boundary ROA with MaxMask equal to both the
prefix length and the family maximum. -/
theorem c8_isValid_iff_witness :
    (({ pfxIs4 := true, pfxBits := 32, pfxAddr := [192, 0, 2, 0],
        MaxMask := 32, ASN := 64512 } : Roa).isValid = true ↔
      (1 ≤ (32 : Nat) ∧ (32 : Nat) ≤ 32 ∧
        (32 : Nat) ≤ if (true : Bool) then 32 else 128)) :=
  c8_isValid_iff
    { pfxIs4 := true, pfxBits := 32, pfxAddr := [192, 0, 2, 0],
      MaxMask := 32, ASN := 64512 }
    (by decide) (by decide)

/-- C9.  The diff computed by makeDiff satisfies the inverse law: as sets,
removing the added entries from the new list and adding back the
withdrawn entries recovers the old list. -/
theorem c9_diff_inverse_law (new old : List Roa) (serial : Nat)
    (_h1 : new.Nodup) (_h2 : old.Nodup) (x : Roa) :
    ((x ∈ new ∧ x ∉ (makeDiff new old serial).addRoa) ∨
        x ∈ (makeDiff new old serial).delRoa) ↔ x ∈ old := by
  simp only [makeDiff, List.mem_filter, decide_eq_true_iff]
  constructor
  · rintro (⟨hn, hna⟩ | ⟨ho, _⟩)
    · by_contra ho
      exact hna ⟨hn, ho⟩
    · exact ho
  · intro ho
    by_cases hn : x ∈ new
    · exact Or.inl ⟨hn, fun h => h.2 ho⟩
    · exact Or.inr ⟨ho, hn⟩

/-- Witness for C9 at concrete duplicate-free lists. -/
theorem c9_diff_inverse_law_witness :
    ((({ pfxIs4 := true, pfxBits := 24, pfxAddr := [10, 0, 0, 0],
         MaxMask := 24, ASN := 1 } : Roa) ∈
          [({ pfxIs4 := true, pfxBits := 24, pfxAddr := [10, 0, 0, 0],
              MaxMask := 24, ASN := 1 } : Roa)] ∧
        ({ pfxIs4 := true, pfxBits := 24, pfxAddr := [10, 0, 0, 0],
           MaxMask := 24, ASN := 1 } : Roa) ∉
          (makeDiff
            [({ pfxIs4 := true, pfxBits := 24, pfxAddr := [10, 0, 0, 0],
                MaxMask := 24, ASN := 1 } : Roa)]
            [({ pfxIs4 := true, pfxBits := 24, pfxAddr := [10, 0, 0, 0],
                MaxMask := 24, ASN := 1 } : Roa),
             ({ pfxIs4 := false, pfxBits := 48, pfxAddr := List.replicate 16 0,
                MaxMask := 64, ASN := 2 } : Roa)] 9).addRoa) ∨
      ({ pfxIs4 := true, pfxBits := 24, pfxAddr := [10, 0, 0, 0],
         MaxMask := 24, ASN := 1 } : Roa) ∈
        (makeDiff
          [({ pfxIs4 := true, pfxBits := 24, pfxAddr := [10, 0, 0, 0],
              MaxMask := 24, ASN := 1 } : Roa)]
          [({ pfxIs4 := true, pfxBits := 24, pfxAddr := [10, 0, 0, 0],
              MaxMask := 24, ASN := 1 } : Roa),
           ({ pfxIs4 := false, pfxBits := 48, pfxAddr := List.replicate 16 0,
              MaxMask := 64, ASN := 2 } : Roa)] 9).delRoa) ↔
      ({ pfxIs4 := true, pfxBits := 24, pfxAddr := [10, 0, 0, 0],
         MaxMask := 24, ASN := 1 } : Roa) ∈
        [({ pfxIs4 := true, pfxBits := 24, pfxAddr := [10, 0, 0, 0],
            MaxMask := 24, ASN := 1 } : Roa),
         ({ pfxIs4 := false, pfxBits := 48, pfxAddr := List.replicate 16 0,
            MaxMask := 64, ASN := 2 } : Roa)] :=
  c9_diff_inverse_law
    [{ pfxIs4 := true, pfxBits := 24, pfxAddr := [10, 0, 0, 0],
       MaxMask := 24, ASN := 1 }]
    [{ pfxIs4 := true, pfxBits := 24, pfxAddr := [10, 0, 0, 0],
       MaxMask := 24, ASN := 1 },
     { pfxIs4 := false, pfxBits := 48, pfxAddr := List.replicate 16 0,
       MaxMask := 64, ASN := 2 }] 9
    (by decide) (by decide)
    { pfxIs4 := true, pfxBits := 24, pfxAddr := [10, 0, 0, 0],
      MaxMask := 24, ASN := 1 }

/-- C2, counterexample to the claim as stated.  At serial 5 with an empty
stored diff, a Serial Query for serial 4 = S - 1 is answered with a single
End of Data PDU, not with the Cache Reset the claim requires for that
case. -/
theorem c2_serial_query_counterexample :
    handleSerialQuery 2
        { roas := [], diffs := { delRoa := [], addRoa := [], diff := false },
          serial := 5, session := 1 } 4 =
      [.endOfData (NewEndOfDataPDU 2 1 5 3600 600 7200)] ∧
    handleSerialQuery 2
        { roas := [], diffs := { delRoa := [], addRoa := [], diff := false },
          serial := 5, session := 1 } 4 ≠
      [.cacheReset (NewCacheResetPDU 2)] := by
  decide

set_option maxRecDepth 4000 in
/-- C2, amended.  Serial Query handling by cases on the requested serial s
against the current serial S: s = 0 gets Cache Reset; s = S gets Cache
Response then End of Data; s = S - 1 (uint32 wrap) with a non-empty stored
diff gets Cache Response, the announce PDUs for the added entries, the
withdraw PDUs for the withdrawn entries, and End of Data; s = S - 1 with
an empty stored diff gets a single End of Data; every other s gets Cache
Reset. -/
theorem c2_serial_query_amended (ver : Nat) (st : CacheState) (s : Nat)
    (_hS : st.serial < 4294967296) :
    (s = 0 → handleSerialQuery ver st s = [.cacheReset (NewCacheResetPDU ver)]) ∧
    (s ≠ 0 → s = st.serial → handleSerialQuery ver st s =
      [.cacheResponse (NewCacheResponsePDU ver st.session),
       .endOfData (NewEndOfDataPDU ver st.session st.serial 3600 600 7200)]) ∧
    (s ≠ 0 → s = u32 (st.serial + 4294967295) → st.isDiffs = true →
      handleSerialQuery ver st s =
        .cacheResponse (NewCacheResponsePDU ver st.session)
          :: (st.diffs.addRoa.map (prefixPDUFor ver Announce)
              ++ st.diffs.delRoa.map (prefixPDUFor ver Withdraw)
              ++ [.endOfData (NewEndOfDataPDU ver st.session st.serial 3600 600 7200)])) ∧
    (s ≠ 0 → s = u32 (st.serial + 4294967295) → st.isDiffs = false →
      handleSerialQuery ver st s =
        [.endOfData (NewEndOfDataPDU ver st.session st.serial 3600 600 7200)]) ∧
    (s ≠ 0 → s ≠ st.serial → s ≠ u32 (st.serial + 4294967295) →
      handleSerialQuery ver st s = [.cacheReset (NewCacheResetPDU ver)]) := by
  have hne : u32 (st.serial + 4294967295) ≠ st.serial := by
    simp only [u32]
    omega
  refine ⟨?_, ?_, ?_, ?_, ?_⟩
  · intro h0
    simp [handleSerialQuery, h0, sendCacheReset]
  · intro h0 hs
    subst hs
    simp [handleSerialQuery, h0, hne, Ne.symm hne, sendCacheResponse, sendEndOfDataPDU,
          DefaultRefreshInterval, DefaultRetryInterval, DefaultExpireInterval]
  · intro h0 hp hd
    rw [hp] at h0 ⊢
    rw [handleSerialQuery, if_neg h0, if_neg (by push_neg; intro _; rfl)]
    rw [if_neg hne, if_pos (⟨rfl, hd⟩ :
      u32 (st.serial + 4294967295) = u32 (st.serial + 4294967295) ∧ st.isDiffs = true)]
    simp [sendCacheResponse, sendEndOfDataPDU, sendDiffs,
          DefaultRefreshInterval, DefaultRetryInterval, DefaultExpireInterval]
  · intro h0 hp hd
    rw [hp] at h0 ⊢
    rw [handleSerialQuery, if_neg h0, if_neg (by push_neg; intro _; rfl)]
    rw [if_neg hne, if_neg (by simp [hd])]
    simp [sendEndOfDataPDU, DefaultRefreshInterval, DefaultRetryInterval, DefaultExpireInterval]
  · intro h0 hs hp
    simp [handleSerialQuery, h0, hs, hp, sendCacheReset]

/-- Witness for the amended C2 at a concrete state, requested serial 0. -/
theorem c2_serial_query_amended_witness :
    handleSerialQuery 2
        { roas := [], diffs := { delRoa := [], addRoa := [], diff := false },
          serial := 5, session := 1 } 0 =
      [.cacheReset (NewCacheResetPDU 2)] :=
  (c2_serial_query_amended 2
      { roas := [], diffs := { delRoa := [], addRoa := [], diff := false },
        serial := 5, session := 1 } 0 (by decide)).1 rfl

/-- C4.  The post-negotiation read loop never consults the version field
of an incoming PDU: with negotiated version 2, a Reset Query carrying
version 1 is served the normal Cache Response and End of Data and the
connection stays open, with no Error Report (code 8) emitted, contrary to
the specification and to the repository's own TestVersionMismatch. -/
theorem c4_version_pinning_bug :
    handleLoopPDU 2
        { roas := [], diffs := { delRoa := [], addRoa := [], diff := false },
          serial := 1, session := 4660 }
        (.resetQuery (NewResetQueryPDU 1)) =
      { out := [.cacheResponse (NewCacheResponsePDU 2 4660),
                .endOfData (NewEndOfDataPDU 2 4660 1 3600 600 7200)],
        closed := false } ∧
    (handleLoopPDU 2
        { roas := [], diffs := { delRoa := [], addRoa := [], diff := false },
          serial := 1, session := 4660 }
        (.resetQuery (NewResetQueryPDU 1))).out.countP PDU.isErrorReportB = 0 ∧
    (handleLoopPDU 2
        { roas := [], diffs := { delRoa := [], addRoa := [], diff := false },
          serial := 1, session := 4660 }
        (.resetQuery (NewResetQueryPDU 1))).closed = false := by
  decide

/-- C6.  The response to a Reset Query is exactly one Cache Response with
the cache session, one announce prefix PDU per cached ROA in order, and
one final End of Data with the session, the current serial, and the
default intervals 3600, 600, 7200; each prefix PDU carries the announce
flag, the prefix length, the max length, the address bytes and the ASN of
its ROA. -/
theorem c6_reset_query_response (ver : Nat) (st : CacheState) :
    handleResetQuery ver st =
      .cacheResponse (NewCacheResponsePDU ver st.session)
        :: (st.roas.map (prefixPDUFor ver Announce)
            ++ [.endOfData (NewEndOfDataPDU ver st.session st.serial 3600 600 7200)]) ∧
    (handleResetQuery ver st).countP PDU.isCacheResponseB = 1 ∧
    (handleResetQuery ver st).countP PDU.isEndOfDataB = 1 ∧
    ∀ r : Roa, PDU.isPrefixB (prefixPDUFor ver Announce r) = true ∧
      prefixFlags (prefixPDUFor ver Announce r) = some Announce ∧
      prefixMin (prefixPDUFor ver Announce r) = some (u8 r.pfxBits) ∧
      prefixMax (prefixPDUFor ver Announce r) = some r.MaxMask ∧
      prefixAddr (prefixPDUFor ver Announce r) = some r.pfxAddr ∧
      prefixAsn (prefixPDUFor ver Announce r) = some r.ASN := by
  have hzero : ∀ (p : PDU → Bool), (∀ r : Roa, p (prefixPDUFor ver Announce r) = false) →
      (st.roas.map (prefixPDUFor ver Announce)).countP p = 0 := by
    intro p hp
    rw [List.countP_eq_zero]
    rintro q hq
    rcases List.mem_map.mp hq with ⟨r, _, rfl⟩
    simp [hp r]
  refine ⟨?_, ?_, ?_, ?_⟩
  · simp [handleResetQuery, sendCacheResponse, sendAllROAS, sendEndOfDataPDU,
          DefaultRefreshInterval, DefaultRetryInterval, DefaultExpireInterval]
  · have h0 := hzero PDU.isCacheResponseB (by
      intro r
      by_cases h4 : r.pfxIs4 <;> simp [prefixPDUFor, h4, PDU.isCacheResponseB])
    simp [handleResetQuery, sendCacheResponse, sendAllROAS, sendEndOfDataPDU,
          List.countP_append, List.countP_cons, h0, PDU.isCacheResponseB]
  · have h0 := hzero PDU.isEndOfDataB (by
      intro r
      by_cases h4 : r.pfxIs4 <;> simp [prefixPDUFor, h4, PDU.isEndOfDataB])
    simp [handleResetQuery, sendCacheResponse, sendAllROAS, sendEndOfDataPDU,
          List.countP_append, List.countP_cons, h0, PDU.isEndOfDataB]
  · intro r
    by_cases h4 : r.pfxIs4 <;>
      simp [prefixPDUFor, h4, PDU.isPrefixB, prefixFlags, prefixMin, prefixMax,
            prefixAddr, prefixAsn, NewIpv4PrefixPDU, NewIpv6PrefixPDU]

/-- C3.  The encode/decode round trip fails for Error Report PDUs: the
constructor sets the length field to 12 + len(pdu) + len(text), while the
Write method emits and stamps 12 + pduLen + 4 + textLen bytes (the wire
layout includes a four-byte text-length field), so the decoded PDU always
carries a length four larger than the constructed one.  Evaluated here at
the empty Error Report: the constructed length is 12 but the PDU decoded
from its own encoding has length 16. -/
theorem c3_error_report_roundtrip_bug :
    (NewErrorReportPDU 2 0 [] []).write =
      .ok [2, 10, 0, 0, 0, 0, 0, 16, 0, 0, 0, 0, 0, 0, 0, 0] ∧
    GetPDU [2, 10, 0, 0, 0, 0, 0, 16, 0, 0, 0, 0, 0, 0, 0, 0] =
      .ok (.errorReport { verion := 2, ptype := 10, code := 0, length := 16,
                          pduLen := 0, pdu := [], textLen := 0, text := [] }) ∧
    GetPDU [2, 10, 0, 0, 0, 0, 0, 16, 0, 0, 0, 0, 0, 0, 0, 0] ≠
      .ok (.errorReport (NewErrorReportPDU 2 0 [] [])) ∧
    (NewErrorReportPDU 2 0 [] []).length = 12 := by
  decide

/-- C10, counterexample to the claim as stated.  For an ErrorReportPDU
whose pduLen is 2^32 - 12 (backed by an actual slice of that size, so the
length guards pass), the Go expression buf[12 : 12+e.pduLen] computes its
high index in uint32 arithmetic, wraps to 0, and panics with an inverted
slice range; Write is therefore not panic-free on every value. -/
theorem c10_write_counterexample :
    ({ verion := 2, ptype := 10, code := 0, length := 0,
       pduLen := 4294967284, pdu := List.replicate 4294967284 0,
       textLen := 0, text := [] } : ErrorReportPDU).write = .panic := by
  have hlen : (List.replicate 4294967284 (0 : Nat)).length = 4294967284 :=
    List.length_replicate 4294967284 0
  simp only [ErrorReportPDU.write, hlen]
  norm_num [u32]

/-- C10, amended.  For every ErrorReportPDU whose total wire size
12 + pduLen + 4 + textLen fits in a uint32 (always the case in Go unless
the enclosed slices approach 4 GiB), Write never panics, returns an error
writing nothing exactly when pduLen exceeds len(pdu) or textLen exceeds
len(text), and otherwise writes exactly 12 + pduLen + 4 + textLen bytes
whose length field equals that byte count. -/
theorem c10_write_amended (e : ErrorReportPDU)
    (h : 12 + e.pduLen + 4 + e.textLen < 4294967296) :
    e.write ≠ .panic ∧
    (e.pduLen > e.pdu.length ∨ e.textLen > e.text.length → e.write = .err) ∧
    (e.pduLen ≤ e.pdu.length → e.textLen ≤ e.text.length →
      ∃ out, e.write = .ok out ∧
        out.length = 12 + e.pduLen + 4 + e.textLen ∧
        beU32 ((out.drop 4).take 4) = 12 + e.pduLen + 4 + e.textLen) := by
  have hw : u32 (12 + e.pduLen) = 12 + e.pduLen := Nat.mod_eq_of_lt (by omega)
  refine ⟨?_, ?_, ?_⟩
  · unfold ErrorReportPDU.write
    split_ifs with g1 g2 g3
    · simp
    · simp
    · rw [hw] at g3
      omega
    · simp
  · intro hg
    unfold ErrorReportPDU.write
    rcases hg with hg | hg
    · rw [if_pos hg]
    · by_cases g1 : e.pduLen > e.pdu.length
      · rw [if_pos g1]
      · rw [if_neg g1, if_pos hg]
  · intro g1 g2
    refine ⟨[u8 e.verion, u8 e.ptype] ++ pu16 e.code
        ++ pu32 (12 + e.pduLen + 4 + e.textLen) ++ pu32 e.pduLen
        ++ e.pdu.take e.pduLen ++ pu32 e.textLen ++ e.text.take e.textLen,
      ?_, ?_, ?_⟩
    · unfold ErrorReportPDU.write
      rw [if_neg (by omega), if_neg (by omega), if_neg (by rw [hw]; omega)]
    · simp [List.length_take, pu16, pu32]
      omega
    · have h4 : (([u8 e.verion, u8 e.ptype] ++ pu16 e.code
          ++ pu32 (12 + e.pduLen + 4 + e.textLen) ++ pu32 e.pduLen
          ++ e.pdu.take e.pduLen ++ pu32 e.textLen
          ++ e.text.take e.textLen).drop 4).take 4 =
            pu32 (12 + e.pduLen + 4 + e.textLen) := by
        simp [pu16, pu32]
      rw [h4, beU32_pu32]
      exact Nat.mod_eq_of_lt (by omega)

/-- Witness for the amended C10 at a concrete Error Report. -/
theorem c10_write_amended_witness :
    (({ verion := 2, ptype := 10, code := 5, length := 19,
        pduLen := 2, pdu := [1, 2], textLen := 1, text := [3] } : ErrorReportPDU).write ≠
        .panic ∧
      ((2 : Nat) > ([1, 2] : List Nat).length ∨ (1 : Nat) > ([3] : List Nat).length →
        ({ verion := 2, ptype := 10, code := 5, length := 19,
           pduLen := 2, pdu := [1, 2], textLen := 1, text := [3] } : ErrorReportPDU).write =
          .err) ∧
      ((2 : Nat) ≤ ([1, 2] : List Nat).length → (1 : Nat) ≤ ([3] : List Nat).length →
        ∃ out,
          ({ verion := 2, ptype := 10, code := 5, length := 19,
             pduLen := 2, pdu := [1, 2], textLen := 1, text := [3] } : ErrorReportPDU).write =
            .ok out ∧
          out.length = 12 + 2 + 4 + 1 ∧
          beU32 ((out.drop 4).take 4) = 12 + 2 + 4 + 1)) :=
  c10_write_amended
    { verion := 2, ptype := 10, code := 5, length := 19,
      pduLen := 2, pdu := [1, 2], textLen := 1, text := [3] }
    (by decide)

/-- Length of the enclosed PDU read from an Error Report buffer. -/
def erPduLen (data : List Nat) : Nat := beU32 ((data.drop 8).take 4)

/-- Length of the diagnostic text read from an Error Report buffer, at the
offset determined by the enclosed-PDU length. -/
def erTextLen (data : List Nat) : Nat :=
  beU32 ((data.drop (12 + erPduLen data)).take 4)

/-- A framed byte buffer as produced by getPDUBytes: total size between 8
and 65535 bytes, equal to the big-endian length field. -/
def framedBuffer (data : List Nat) : Prop :=
  8 ≤ data.length ∧ data.length ≤ 65535 ∧ beU32 ((data.drop 4).take 4) = data.length

/-- The size condition asserted by the claim: decode succeeds exactly on
type 1 with size exactly 12, type 2 with size exactly 8, or type 10 within
the Error Report bound. -/
def c5SizeOk (data : List Nat) : Prop :=
  (data.getD 1 0 = 1 ∧ data.length = 12) ∨
  (data.getD 1 0 = 2 ∧ data.length = 8) ∨
  (data.getD 1 0 = 10 ∧ 12 + erPduLen data + 4 + erTextLen data ≤ data.length)

/-- The C5 claim as stated: on framed buffers, decoding succeeds exactly
under c5SizeOk. -/
def c5Claim : Prop :=
  ∀ data : List Nat, framedBuffer data → ((decipherPDU data).isOk = true ↔ c5SizeOk data)

/-- C5, counterexample to the claim as stated.  A framed 16-byte buffer of
type 1 (Serial Query) decodes successfully although its size is not the
fixed size 12: the decoder only checks a lower bound. -/
theorem c5_decode_sizes_counterexample : ¬ c5Claim := by
  intro h
  have h16 := (h [1, 1, 0, 0, 0, 0, 0, 16, 0, 0, 0, 7, 0, 0, 0, 0]
    (by unfold framedBuffer; refine ⟨by decide, by decide, by decide⟩)).mp (by decide)
  revert h16
  unfold c5SizeOk erPduLen erTextLen
  decide

/-- C5, amended.  On framed buffers, decoding succeeds exactly when the
type byte is 1 with size at least 12, the type byte is 2 with size at
least 8 (true of every framed buffer), or the type byte is 10 within the
Error Report bound 12 + pduLen + 4 + textLen ≤ total; every other type
byte is rejected. -/
theorem c5_decode_sizes_amended (data : List Nat) (hf : framedBuffer data) :
    (decipherPDU data).isOk = true ↔
      ((data.getD 1 0 = 1 ∧ 12 ≤ data.length) ∨
       (data.getD 1 0 = 2 ∧ 8 ≤ data.length) ∨
       (data.getD 1 0 = 10 ∧ 12 + erPduLen data + 4 + erTextLen data ≤ data.length)) := by
  obtain ⟨h8, h65, -⟩ := hf
  have hu : u32 data.length = data.length := Nat.mod_eq_of_lt (by omega)
  unfold decipherPDU
  rw [if_neg (show ¬data.length < 2 by omega),
      goIndex_pos (show 1 < data.length by omega)]
  dsimp only
  by_cases t1 : data.getD 1 0 = 1
  · rw [if_pos t1]
    by_cases h12 : data.length < 12
    · rw [if_pos h12]
      refine iff_of_false (by simp [GoResult.isOk]) ?_
      rintro (⟨-, hb⟩ | ⟨ha, -⟩ | ⟨ha, -⟩)
      · omega
      · rw [t1] at ha
        omega
      · rw [t1] at ha
        omega
    · rw [if_neg h12, goIndex_pos (show 0 < data.length by omega),
          goSlice_pos (show 2 ≤ 4 by omega) (show 4 ≤ data.length by omega),
          goSlice_pos (show 8 ≤ 12 by omega) (show 12 ≤ data.length by omega)]
      dsimp only
      exact iff_of_true rfl (Or.inl ⟨t1, by omega⟩)
  · rw [if_neg t1]
    by_cases t2 : data.getD 1 0 = 2
    · rw [if_pos t2, if_neg (show ¬data.length < 8 by omega),
          goIndex_pos (show 0 < data.length by omega)]
      dsimp only
      exact iff_of_true rfl (Or.inr (Or.inl ⟨t2, h8⟩))
    · rw [if_neg t2]
      by_cases t10 : data.getD 1 0 = 10
      · rw [if_pos t10]
        by_cases h12 : data.length < 12
        · rw [if_pos h12]
          refine iff_of_false (by simp [GoResult.isOk]) ?_
          rintro (⟨ha, -⟩ | ⟨ha, -⟩ | ⟨-, hb⟩)
          · exact t1 ha
          · exact t2 ha
          · omega
        · rw [if_neg h12,
              goSlice_pos (show 8 ≤ 12 by omega) (show 12 ≤ data.length by omega)]
          dsimp only
          have hpl : beU32 ((data.drop 8).take (12 - 8)) = erPduLen data := by
            norm_num [erPduLen]
          rw [hpl]
          by_cases g1 : erPduLen data > u32 data.length ∨
              u32 (12 + erPduLen data + 4) > data.length
          · rw [if_pos g1]
            refine iff_of_false (by simp [GoResult.isOk]) ?_
            rintro (⟨ha, -⟩ | ⟨ha, -⟩ | ⟨-, hb⟩)
            · exact t1 ha
            · exact t2 ha
            · have hle := Nat.mod_le (12 + erPduLen data + 4) 4294967296
              rw [hu] at g1
              simp only [u32] at g1 hle
              omega
          · push_neg at g1
            obtain ⟨g1a, g1b⟩ := g1
            rw [hu] at g1a
            have e2 : u32 (12 + erPduLen data + 4) = 12 + erPduLen data + 4 :=
              Nat.mod_eq_of_lt (by omega)
            rw [e2] at g1b
            rw [if_neg (by rw [hu, e2]; push_neg; exact ⟨g1a, g1b⟩)]
            have e1 : u32 (12 + erPduLen data) = 12 + erPduLen data :=
              Nat.mod_eq_of_lt (by omega)
            rw [e1, e2,
                goSlice_pos (show 12 + erPduLen data ≤ 12 + erPduLen data + 4 by omega)
                  (by omega)]
            dsimp only
            have htk : 12 + erPduLen data + 4 - (12 + erPduLen data) = 4 := by omega
            rw [htk]
            have htl : beU32 ((data.drop (12 + erPduLen data)).take 4) = erTextLen data := rfl
            rw [htl]
            by_cases g2 : erTextLen data > u32 data.length ∨
                u32 (12 + erPduLen data + 4 + erTextLen data) > data.length
            · rw [if_pos g2]
              refine iff_of_false (by simp [GoResult.isOk]) ?_
              rintro (⟨ha, -⟩ | ⟨ha, -⟩ | ⟨-, hb⟩)
              · exact t1 ha
              · exact t2 ha
              · have hle := Nat.mod_le (12 + erPduLen data + 4 + erTextLen data) 4294967296
                rw [hu] at g2
                simp only [u32] at g2 hle
                omega
            · push_neg at g2
              obtain ⟨g2a, g2b⟩ := g2
              rw [hu] at g2a
              have e3 : u32 (12 + erPduLen data + 4 + erTextLen data) =
                  12 + erPduLen data + 4 + erTextLen data :=
                Nat.mod_eq_of_lt (by omega)
              rw [e3] at g2b
              rw [if_neg (by rw [hu, e3]; push_neg; exact ⟨g2a, g2b⟩)]
              rw [e3, goIndex_pos (show 0 < data.length by omega),
                  goSlice_pos (show 2 ≤ 4 by omega) (by omega),
                  goSlice_pos (show 4 ≤ 8 by omega) (by omega),
                  goSlice_pos (show 12 ≤ 12 + erPduLen data by omega) (by omega),
                  goSlice_pos (show 12 + erPduLen data + 4 ≤
                    12 + erPduLen data + 4 + erTextLen data by omega) (by omega)]
              dsimp only
              exact iff_of_true rfl (Or.inr (Or.inr ⟨t10, by omega⟩))
      · rw [if_neg t10]
        refine iff_of_false (by simp [GoResult.isOk]) ?_
        rintro (⟨ha, -⟩ | ⟨ha, -⟩ | ⟨ha, -⟩)
        · exact t1 ha
        · exact t2 ha
        · exact t10 ha

/-- Witness for the amended C5 at a framed Reset Query buffer. -/
theorem c5_decode_sizes_amended_witness :
    (decipherPDU [1, 2, 0, 0, 0, 0, 0, 8]).isOk = true :=
  (c5_decode_sizes_amended [1, 2, 0, 0, 0, 0, 0, 8]
    (by unfold framedBuffer; refine ⟨by decide, by decide, by decide⟩)).mpr (by decide)

/-- getPDUBytes returns a value or an error, never a panic: its only
buffer accesses are the fixed header window and reads bounded by the
validated length. -/
theorem getPDUBytes_ne_panic (stream : List Nat) : getPDUBytes stream ≠ .panic := by
  unfold getPDUBytes
  dsimp only
  split_ifs <;> simp

/-- Every buffer getPDUBytes hands to the dispatcher has the validated
total size: at least 8 and at most 65535 bytes. -/
theorem getPDUBytes_ok_length {stream data : List Nat}
    (h : getPDUBytes stream = .ok data) :
    8 ≤ data.length ∧ data.length ≤ 65535 := by
  unfold getPDUBytes at h
  dsimp only at h
  split_ifs at h with h1 h2 h3 h4
  · rw [GoResult.ok.injEq] at h
    subst h
    simp only [List.length_append, List.length_take, List.length_drop] at *
    omega
  · rw [GoResult.ok.injEq] at h
    subst h
    simp only [List.length_take] at *
    omega

/-- The dispatcher never panics on a buffer of framed size: all its index
and slice expressions stay in range once the explicit guards have
passed. -/
theorem decipherPDU_ne_panic {data : List Nat} (h65 : data.length ≤ 65535) :
    decipherPDU data ≠ .panic := by
  unfold decipherPDU
  by_cases h2 : data.length < 2
  · rw [if_pos h2]
    simp
  · rw [if_neg h2, goIndex_pos (show 1 < data.length by omega)]
    dsimp only
    by_cases t1 : data.getD 1 0 = 1
    · rw [if_pos t1]
      by_cases h12 : data.length < 12
      · rw [if_pos h12]
        simp
      · rw [if_neg h12, goIndex_pos (show 0 < data.length by omega),
            goSlice_pos (show 2 ≤ 4 by omega) (show 4 ≤ data.length by omega),
            goSlice_pos (show 8 ≤ 12 by omega) (show 12 ≤ data.length by omega)]
        dsimp only
        simp
    · rw [if_neg t1]
      by_cases t2 : data.getD 1 0 = 2
      · rw [if_pos t2]
        by_cases h8 : data.length < 8
        · rw [if_pos h8]
          simp
        · rw [if_neg h8, goIndex_pos (show 0 < data.length by omega)]
          dsimp only
          simp
      · rw [if_neg t2]
        by_cases t10 : data.getD 1 0 = 10
        · rw [if_pos t10]
          by_cases h12 : data.length < 12
          · rw [if_pos h12]
            simp
          · rw [if_neg h12,
                goSlice_pos (show 8 ≤ 12 by omega) (show 12 ≤ data.length by omega)]
            dsimp only
            set pl := beU32 ((data.drop 8).take (12 - 8)) with hpldef
            by_cases g1 : pl > u32 data.length ∨ u32 (12 + pl + 4) > data.length
            · rw [if_pos g1]
              simp
            · push_neg at g1
              obtain ⟨g1a, g1b⟩ := g1
              have hu : u32 data.length = data.length := Nat.mod_eq_of_lt (by omega)
              rw [hu] at g1a
              have e2 : u32 (12 + pl + 4) = 12 + pl + 4 := Nat.mod_eq_of_lt (by omega)
              rw [e2] at g1b
              have e1 : u32 (12 + pl) = 12 + pl := Nat.mod_eq_of_lt (by omega)
              rw [if_neg (by rw [hu, e2]; push_neg; exact ⟨g1a, g1b⟩), e1, e2,
                  goSlice_pos (show 12 + pl ≤ 12 + pl + 4 by omega) (by omega)]
              dsimp only
              have htk : 12 + pl + 4 - (12 + pl) = 4 := by omega
              rw [htk]
              set tl := beU32 ((data.drop (12 + pl)).take 4) with htldef
              by_cases g2 : tl > u32 data.length ∨ u32 (12 + pl + 4 + tl) > data.length
              · rw [if_pos g2]
                simp
              · push_neg at g2
                obtain ⟨g2a, g2b⟩ := g2
                rw [hu] at g2a
                have e3 : u32 (12 + pl + 4 + tl) = 12 + pl + 4 + tl :=
                  Nat.mod_eq_of_lt (by omega)
                rw [e3] at g2b
                rw [if_neg (by rw [hu, e3]; push_neg; exact ⟨g2a, g2b⟩), e3,
                    goIndex_pos (show 0 < data.length by omega),
                    goSlice_pos (show 2 ≤ 4 by omega) (by omega),
                    goSlice_pos (show 4 ≤ 8 by omega) (by omega),
                    goSlice_pos (show 12 ≤ 12 + pl by omega) (by omega),
                    goSlice_pos (show 12 + pl + 4 ≤ 12 + pl + 4 + tl by omega) (by omega)]
                dsimp only
                simp
        · rw [if_neg t10]
          simp

/-- C1.  Decoding never panics: for every byte stream, framing followed by
dispatch returns a typed PDU or an error, and in particular every type
byte, length field, Error Report pduLen and textLen value, and every
truncation of the stream is handled without a panic. -/
theorem c1_decode_never_panics (stream : List Nat) : GetPDU stream ≠ .panic := by
  unfold GetPDU
  cases hb : getPDUBytes stream with
  | ok data => exact decipherPDU_ne_panic (getPDUBytes_ok_length hb).2
  | err => simp
  | panic => exact absurd hb (getPDUBytes_ne_panic stream)

end Rtr
